import Mathlib

/-!
Verification of the AI-search-chat frontend (Next.js client in
`frontend/app/page.tsx` and the API proxy handler) against its
natural-language specification, together with a spec-modelled fragment of
the backend job registry (whose Python source is not in the repository
snapshot).

The embedding is shallow: each TypeScript function is translated into a
Lean function over explicit state, JSON payloads become association lists
of field name to value, and React `setState` reducers become pure state
transformers.
-/

/-- JSON-ish values as they occur in the client after `JSON.parse`:
strings, numbers, and the JavaScript `undefined` produced by reading an
absent object field. -/
inductive JsonVal
  | str (s : String)
  | num (n : Int)
  | undefined
deriving DecidableEq, Repr

/-- Stringification as performed by JavaScript string concatenation and
template literals: strings pass through, numbers print, `undefined`
becomes the text `undefined`. -/
def JsonVal.asString : JsonVal → String
  | .str s => s
  | .num n => toString n
  | .undefined => "undefined"

/-- A parsed JSON object payload: field names mapped to values. -/
abbrev Payload := List (String × JsonVal)

/-- JavaScript property access `payload.k`: the field value if present,
`undefined` otherwise. -/
def Payload.get (p : Payload) (k : String) : JsonVal :=
  (p.lookup k).getD JsonVal.undefined

/-- Message roles, from `type Message` in `page.tsx`. -/
inductive Role
  | user
  | ai
  | tool
deriving DecidableEq, Repr

/-- A chat message, from `type Message` in `page.tsx`.  The `citations`
field is optional there (`citations?: Citation[]`); stored citation
payloads are kept as the raw parsed JSON objects, since
`JSON.parse(e.data)` performs no validation. -/
structure Message where
  role : Role
  text : String
  citations : Option (List Payload)
deriving DecidableEq, Repr

/-- Observation helper: the most recent message with role `ai`, i.e. the
message that the backwards `for` loops in the `text` and `citation`
listeners of `page.tsx` select. -/
def lastAi : List Message → Option Message
  | [] => none
  | m :: ms =>
    match lastAi ms with
    | some a => some a
    | none => if m.role = Role.ai then some m else none

/-- Whether the message list contains a message with role `ai`. -/
def hasAi (ms : List Message) : Bool :=
  (lastAi ms).isSome

/-- The index of the most recent message with role `ai`, if any. -/
def lastAiIdx : List Message → Option Nat
  | [] => none
  | m :: ms =>
    match lastAiIdx ms with
    | some i => some (i + 1)
    | none => if m.role = Role.ai then some 0 else none

/-- The text of the most recent `ai` message. -/
def lastAiText (ms : List Message) : Option String :=
  (lastAi ms).map Message.text

/-- The citation list of the most recent `ai` message, with the
`citations || []` defaulting that the `citation` listener applies. -/
def lastAiCitations (ms : List Message) : Option (List Payload) :=
  (lastAi ms).map (fun m => m.citations.getD [])

/-- The update loop shared by the `text` and `citation` listeners in
`page.tsx`: walk the message list from the end, replace the first message
with role `ai` that is found (i.e. the last such message in the list) by
`f` of it, and return the list unchanged when no `ai` message exists
(the JavaScript loop falls through and returns `prev`). -/
def updateLastAi (f : Message → Message) : List Message → List Message
  | [] => []
  | m :: ms =>
    if hasAi ms then m :: updateLastAi f ms
    else if m.role = Role.ai then f m :: ms
    else m :: ms

theorem lastAi_eq_none_iff_hasAi_false (ms : List Message) :
    lastAi ms = none ↔ hasAi ms = false := by
  unfold hasAi
  cases lastAi ms <;> simp

theorem lastAiIdx_isSome_eq_hasAi (ms : List Message) :
    (lastAiIdx ms).isSome = hasAi ms := by
  induction ms with
  | nil => rfl
  | cons m ms ih =>
    unfold lastAiIdx hasAi lastAi
    unfold hasAi at ih
    cases h : lastAiIdx ms with
    | some i =>
      rw [h] at ih
      cases h2 : lastAi ms with
      | some a => simp
      | none => rw [h2] at ih; simp at ih
    | none =>
      rw [h] at ih
      cases h2 : lastAi ms with
      | some a => rw [h2] at ih; simp at ih
      | none => by_cases hr : m.role = Role.ai <;> simp [hr]

theorem updateLastAi_of_not_hasAi (f : Message → Message) (ms : List Message)
    (h : hasAi ms = false) : updateLastAi f ms = ms := by
  induction ms with
  | nil => rfl
  | cons m ms ih =>
    unfold hasAi lastAi at h
    unfold updateLastAi
    cases h2 : lastAi ms with
    | some a => rw [h2] at h; simp at h
    | none =>
      rw [h2] at h
      have hms : hasAi ms = false := by
        unfold hasAi; rw [h2]; rfl
      rw [hms]
      simp only [Bool.false_eq_true, if_false]
      by_cases hr : m.role = Role.ai
      · rw [hr] at h; simp at h
      · rw [if_neg hr]

/-- Core lemma: updating the last `ai` message with a role-preserving `f`
maps the observed last `ai` message through `f`. -/
theorem lastAi_updateLastAi (f : Message → Message)
    (hf : ∀ m, (f m).role = m.role) (ms : List Message) :
    lastAi (updateLastAi f ms) = (lastAi ms).map f := by
  induction ms with
  | nil => rfl
  | cons m ms ih =>
    unfold updateLastAi
    by_cases h : hasAi ms
    · rw [if_pos h]
      unfold lastAi
      rw [ih]
      cases h2 : lastAi ms with
      | some a => simp
      | none =>
        rw [lastAi_eq_none_iff_hasAi_false] at h2
        rw [h2] at h; simp at h
    · rw [if_neg h]
      have h2 : lastAi ms = none := by
        rw [lastAi_eq_none_iff_hasAi_false]
        simpa using h
      by_cases hr : m.role = Role.ai
      · rw [if_pos hr]
        unfold lastAi
        rw [h2]
        simp only [Option.map]
        rw [hf m, hr]
        simp
      · rw [if_neg hr]
        unfold lastAi
        rw [h2]
        simp only [Option.map]
        rw [if_neg hr]

theorem updateLastAi_length (f : Message → Message) (ms : List Message) :
    (updateLastAi f ms).length = ms.length := by
  induction ms with
  | nil => rfl
  | cons m ms ih =>
    unfold updateLastAi
    by_cases h : hasAi ms
    · rw [if_pos h]; simpa using ih
    · rw [if_neg h]
      by_cases hr : m.role = Role.ai
      · rw [if_pos hr]; simp
      · rw [if_neg hr]

/-- Positions other than the last-`ai` index are untouched by
`updateLastAi`. -/
theorem updateLastAi_get?_ne (f : Message → Message) (ms : List Message)
    (i : Nat) (hi : lastAiIdx ms = some i) :
    ∀ j, j ≠ i → (updateLastAi f ms).get? j = ms.get? j := by
  induction ms generalizing i with
  | nil => simp [lastAiIdx] at hi
  | cons m ms ih =>
    intro j hj
    unfold updateLastAi
    unfold lastAiIdx at hi
    by_cases h : hasAi ms
    · rw [if_pos h]
      have hsome : (lastAiIdx ms).isSome = true := by
        rw [lastAiIdx_isSome_eq_hasAi]; exact h
      cases h2 : lastAiIdx ms with
      | none => rw [h2] at hsome; simp at hsome
      | some i' =>
        rw [h2] at hi
        simp only [Option.some.injEq] at hi
        subst hi
        cases j with
        | zero => rfl
        | succ j' =>
          simp only [List.get?]
          exact ih i' h2 j' (fun hc => hj (by rw [hc]))
    · rw [if_neg h]
      have h2 : lastAiIdx ms = none := by
        cases h3 : lastAiIdx ms with
        | none => rfl
        | some i' =>
          have : (lastAiIdx ms).isSome = true := by rw [h3]; rfl
          rw [lastAiIdx_isSome_eq_hasAi] at this
          exact absurd this (by simpa using h)
      rw [h2] at hi
      by_cases hr : m.role = Role.ai
      · rw [if_pos hr]
        rw [if_pos hr] at hi
        simp only [Option.some.injEq] at hi
        subst hi
        cases j with
        | zero => exact absurd rfl hj
        | succ j' => rfl
      · rw [if_neg hr] at hi
        simp at hi

/-- The chat-relevant client component state of `Page` in `page.tsx`:
the `messages` list, the active `jobId` (`null` when idle), and whether
the generation `EventSource` held in `sseRef` is open. -/
structure ClientState where
  messages : List Message
  jobId : Option String
  streamOpen : Bool
deriving DecidableEq, Repr

/-- Body of the `text` listener (`page.tsx` lines 134-147): append
`payload.chunk` to the text of the last `ai` message; when no `ai`
message exists the reducer returns `prev` unchanged. -/
def applyTextFrame (p : Payload) (ms : List Message) : List Message :=
  updateLastAi (fun m => { m with text := m.text ++ (p.get "chunk").asString }) ms

/-- Body of the `tool` listener (`page.tsx` lines 148-151): append a new
message with role `tool` and text `payload.step`. -/
def applyToolFrame (p : Payload) (ms : List Message) : List Message :=
  ms ++ [{ role := Role.tool, text := (p.get "step").asString, citations := none }]

/-- Body of the `citation` listener (`page.tsx` lines 152-168): append
the parsed payload to `citations || []` of the last `ai` message; when no
`ai` message exists the reducer returns `prev` unchanged. -/
def applyCitationFrame (p : Payload) (ms : List Message) : List Message :=
  updateLastAi (fun m => { m with citations := some (m.citations.getD [] ++ [p]) }) ms

/-- The event names for which the generation stream registers listeners,
in registration order (`ev.addEventListener(...)` in `page.tsx`
lines 134-173). -/
def genListenerNames : List String :=
  ["text", "tool", "citation", "done"]

/-- Delivery of one named frame on the generation stream: dispatch to the
registered listener, or do nothing when no listener is registered for the
name (`EventSource` drops frames with unlistened names).  The `done`
listener closes the `EventSource`, clears `sseRef`, and sets the job id
to `null`. -/
def genDispatch (name : String) (p : Payload) (s : ClientState) : ClientState :=
  if name = "text" then { s with messages := applyTextFrame p s.messages }
  else if name = "tool" then { s with messages := applyToolFrame p s.messages }
  else if name = "citation" then { s with messages := applyCitationFrame p s.messages }
  else if name = "done" then { s with streamOpen := false, jobId := none }
  else s

/-- Deliver a finite sequence of named frames in order. -/
def deliverAll (frames : List (String × Payload)) (s : ClientState) : ClientState :=
  frames.foldl (fun s f => genDispatch f.1 f.2 s) s

/-- Citation badge labels as rendered by `page.tsx` lines 279-291: the
badge for the citation at position `i` of the citation list reads
`[i + 1]` followed by the title. -/
def citationBadges (cs : List Payload) : List (Nat × JsonVal) :=
  cs.enum.map (fun ic => (ic.1 + 1, ic.2.get "title"))

/-- The upload progress card state `{step, progress}` of `page.tsx`.
Both fields hold whatever the done or progress payload contained. -/
structure UploadProgress where
  step : JsonVal
  progress : JsonVal
deriving DecidableEq, Repr

/-- Upload-relevant client state: the progress card (`null` when hidden),
the visible uploaded-files list, and whether the upload `EventSource` is
open. -/
structure UploadState where
  uploadProgress : Option UploadProgress
  uploadedFiles : List JsonVal
  streamOpen : Bool
deriving DecidableEq, Repr

/-- Delivery of one named frame on the upload-progress stream
(`page.tsx` lines 73-97).  `data` is the parsed frame payload; `none`
models a frame whose `e.data` is absent (possible for `error`).  For the
`progress` and `done` listeners an absent payload makes `JSON.parse`
throw before any state update, leaving the state unchanged.  The `done`
listener records `payload.message` as the step, sets progress to `100`
and appends `payload.filename` to the uploaded-files list (the deferred
`setTimeout` reset 1.5 s later is outside this instantaneous model, so
`streamOpen` is left `true` here).  The `error` listener shows
`Error: msg` at progress `0` and closes the stream. -/
def uploadDispatch (name : String) (data : Option Payload) (s : UploadState) : UploadState :=
  if name = "progress" then
    match data with
    | some p => { s with uploadProgress := some ⟨p.get "text", p.get "progress"⟩ }
    | none => s
  else if name = "done" then
    match data with
    | some p =>
      { s with
        uploadProgress := some ⟨p.get "message", JsonVal.num 100⟩,
        uploadedFiles := s.uploadedFiles ++ [p.get "filename"] }
    | none => s
  else if name = "error" then
    let msg : JsonVal :=
      match data with
      | some p => p.get "message"
      | none => JsonVal.str "Connection lost"
    { s with
      uploadProgress := some ⟨JsonVal.str ("Error: " ++ msg.asString), JsonVal.num 0⟩,
      streamOpen := false }
  else s

/-- JavaScript `String.prototype.trim`: strip whitespace characters
from both ends, here over the underlying character list (executable, so
that concrete prompts evaluate). -/
def jsTrim (s : String) : String :=
  ⟨((s.data.dropWhile Char.isWhitespace).reverse.dropWhile Char.isWhitespace).reverse⟩

/-- Page-level state touched by `send` in `page.tsx`. -/
structure AppState where
  prompt : String
  messages : List Message
  jobId : Option String
deriving DecidableEq, Repr

/-- The `send` handler (`page.tsx` lines 109-124).  `jobIdFromServer` is
the `job_id` the `/api/proxy/generate` call would return; the returned
`Bool` records whether that network request was performed.  When the
trimmed prompt is empty (`if (!prompt.trim()) return`) nothing happens;
otherwise the user message and an empty `ai` message are appended, the
job id is set, and the prompt input is cleared. -/
def send (jobIdFromServer : String) (s : AppState) : AppState × Bool :=
  if jsTrim s.prompt = "" then (s, false)
  else
    ({ prompt := ""
     , messages := s.messages ++
         [{ role := Role.user, text := s.prompt, citations := none },
          { role := Role.ai, text := "", citations := some [] }]
     , jobId := some jobIdFromServer }, true)

/-- Modelled from the spec: the backend Event tagged union of section 3
(`tool-step`, `text-chunk`, `citation`, `progress`, `done`, `error`);
the backend FastAPI source (`backend/main.py`) is not in the repository
snapshot, only its frontend callers are. -/
inductive Event
  | toolStep (text : String)
  | textChunk (text : String)
  | citation (c : Payload)
  | progress (text : String) (percent : Int)
  | done (summary : String)
  | error (message : String)
deriving DecidableEq, Repr

/-- Modelled from the spec: `done` and `error` are the terminal events. -/
def Event.isTerminal : Event → Bool
  | .done _ => true
  | .error _ => true
  | _ => false

/-- Modelled from the spec: a job's append-only ordered event log. -/
structure JobLog where
  events : List Event
deriving DecidableEq, Repr

/-- Modelled from the spec: a log is terminal once a terminal event has
been appended. -/
def JobLog.terminal (l : JobLog) : Bool :=
  l.events.any Event.isTerminal

/-- The number of terminal events in a log. -/
def JobLog.countTerminal (l : JobLog) : Nat :=
  l.events.countP Event.isTerminal

/-- Modelled from the spec: failure modes of `append_event` for a known
job (section 4.1; `UnknownJob` concerns registry lookup, which is not
needed for the per-job invariant). -/
inductive AppendFailure
  | jobAlreadyTerminal
deriving DecidableEq, Repr

/-- Modelled from the spec: `append_event` of section 4.1 restricted to
one job's log — fails with `JobAlreadyTerminal` if a terminal event was
already appended, otherwise appends. -/
def appendEvent (l : JobLog) (e : Event) : Except AppendFailure JobLog :=
  if l.terminal then Except.error AppendFailure.jobAlreadyTerminal
  else Except.ok ⟨l.events ++ [e]⟩

/-- Run a sequence of append attempts; a failed attempt leaves the log
unchanged. -/
def runAppends (l : JobLog) : List Event → JobLog
  | [] => l
  | e :: es =>
    match appendEvent l e with
    | Except.ok l2 => runAppends l2 es
    | Except.error _ => runAppends l es

/-- A non-terminal log contains no terminal event. -/
theorem countTerminal_eq_zero_of_not_terminal (l : JobLog)
    (h : l.terminal = false) : l.countTerminal = 0 := by
  unfold JobLog.terminal at h
  unfold JobLog.countTerminal
  rw [List.countP_eq_zero]
  intro a ha
  rw [List.any_eq_false] at h
  simpa using h a ha

theorem countTerminal_runAppends_le (es : List Event) (l : JobLog)
    (h : l.countTerminal ≤ 1) :
    (runAppends l es).countTerminal ≤ 1 := by
  induction es generalizing l with
  | nil => exact h
  | cons e es ih =>
    unfold runAppends appendEvent
    by_cases ht : l.terminal
    · rw [if_pos ht]
      exact ih l h
    · rw [if_neg ht]
      apply ih
      have h0 : l.countTerminal = 0 :=
        countTerminal_eq_zero_of_not_terminal l (by simpa using ht)
      unfold JobLog.countTerminal at h0 ⊢
      simp only [List.countP_append]
      rw [h0]
      cases e <;> simp [List.countP, List.countP.go, Event.isTerminal]

theorem runAppends_of_terminal (es : List Event) (l : JobLog)
    (h : l.terminal = true) : runAppends l es = l := by
  induction es with
  | nil => rfl
  | cons e es ih =>
    unfold runAppends appendEvent
    rw [if_pos h]
    exact ih

/-- A fetch of the backend that fails (network error and the like),
before any response headers are written. -/
structure FetchFailure where
  message : String
deriving DecidableEq, Repr

/-- A byte chunk as produced by `response.body.getReader().read()`. -/
abbrev ByteChunk := List Nat

/-- A backend response as seen by the proxy: status code, headers (the
`fetch` `Headers` object normalises keys to lower case and yields each
key once, in order), and the body as the ordered chunks the reader
yields. -/
structure BackendResponse where
  status : Nat
  headers : List (String × String)
  bodyChunks : List ByteChunk
deriving DecidableEq, Repr

/-- One observable action the proxy performs on the Next.js `res`
object. -/
inductive ResAction
  | setStatus (code : Nat)
  | setHeader (key value : String)
  | write (chunk : ByteChunk)
  | endRes
  | jsonBody (status : Nat) (fields : List (String × String))
deriving DecidableEq, Repr

/-- The proxy `handler` of `pages/api/proxy/[...path].ts` (concatenated
into `frontend/tailwind.config.js` in this snapshot), lines 35-95,
reduced to its effect on the client response: on a successful backend
fetch it sets the backend status, copies every header except
`content-encoding` and `content-length` in order (`forEach` passes
`(value, key)`), writes the body chunks in reader order and ends the
response; when the fetch throws it answers
`res.status(500).json({ error: "Proxy error" })`. -/
def handler (result : Except FetchFailure BackendResponse) : List ResAction :=
  match result with
  | Except.ok response =>
    [ResAction.setStatus response.status]
      ++ response.headers.foldl
          (fun acc kv =>
            if kv.1 = "content-encoding" ∨ kv.1 = "content-length" then acc
            else acc ++ [ResAction.setHeader kv.1 kv.2]) []
      ++ response.bodyChunks.map ResAction.write
      ++ [ResAction.endRes]
  | Except.error _ =>
    [ResAction.jsonBody 500 [("error", "Proxy error")]]

/-- Extract the status-set actions. -/
def getStatusAction : ResAction → Option Nat
  | .setStatus c => some c
  | _ => none

/-- Extract the header-set actions. -/
def getHeaderAction : ResAction → Option (String × String)
  | .setHeader k v => some (k, v)
  | _ => none

/-- Extract the body-write actions. -/
def getWriteAction : ResAction → Option ByteChunk
  | .write c => some c
  | _ => none

theorem handler_headerFold (hs : List (String × String)) (acc : List ResAction) :
    hs.foldl
        (fun acc kv =>
          if kv.1 = "content-encoding" ∨ kv.1 = "content-length" then acc
          else acc ++ [ResAction.setHeader kv.1 kv.2]) acc
      = acc ++ (hs.filter
          (fun kv => ¬(kv.1 = "content-encoding" ∨ kv.1 = "content-length"))).map
          (fun kv => ResAction.setHeader kv.1 kv.2) := by
  induction hs generalizing acc with
  | nil => simp
  | cons kv hs ih =>
    simp only [List.foldl, List.filter]
    by_cases h : kv.1 = "content-encoding" ∨ kv.1 = "content-length"
    · rw [if_pos h, ih, decide_eq_false (not_not_intro h)]
    · rw [if_neg h, ih, decide_eq_true h]
      simp

theorem lastAiText_applyTextFrame (p : Payload) (ms : List Message) (t : String)
    (h : lastAiText ms = some t) :
    lastAiText (applyTextFrame p ms) = some (t ++ (p.get "chunk").asString) := by
  unfold applyTextFrame lastAiText at *
  rw [lastAi_updateLastAi
    (fun m => { m with text := m.text ++ (p.get "chunk").asString }) (fun m => rfl)]
  cases h2 : lastAi ms with
  | none => rw [h2] at h; simp at h
  | some a =>
    rw [h2] at h
    simp only [Option.map, Option.some.injEq] at h ⊢
    rw [h]

theorem lastAiCitations_applyCitationFrame (p : Payload) (ms : List Message)
    (cs : List Payload) (h : lastAiCitations ms = some cs) :
    lastAiCitations (applyCitationFrame p ms) = some (cs ++ [p]) := by
  unfold applyCitationFrame lastAiCitations at *
  rw [lastAi_updateLastAi
    (fun m => { m with citations := some (m.citations.getD [] ++ [p]) }) (fun m => rfl)]
  cases h2 : lastAi ms with
  | none => rw [h2] at h; simp at h
  | some a =>
    rw [h2] at h
    simp only [Option.map, Option.some.injEq] at h ⊢
    rw [← h]
    rfl

/-- Claim C2: for every finite sequence of text-fragment frames delivered
in order on a generation stream, the text of the most recent AI message
equals the concatenation (left fold of string append) of the fragment
payloads in delivery order — the client reducer never reorders, drops or
merges fragments. -/
theorem c2_text_chunks_concatenated (cs : List Payload) (s : ClientState) (t0 : String)
    (h : lastAiText s.messages = some t0) :
    lastAiText (deliverAll (cs.map (fun p => ("text", p))) s).messages
      = some (cs.foldl (fun acc p => acc ++ (p.get "chunk").asString) t0) := by
  induction cs generalizing s t0 with
  | nil => exact h
  | cons p cs ih =>
    have hstep : deliverAll ((p :: cs).map (fun p => ("text", p))) s
        = deliverAll (cs.map (fun p => ("text", p)))
            { s with messages := applyTextFrame p s.messages } := rfl
    rw [hstep, List.foldl_cons]
    exact ih _ _ (lastAiText_applyTextFrame p s.messages t0 h)

/-- Witness for C2 at a concrete input: two fragments `Hel` and `lo`
delivered to a fresh AI message yield text `Hello`. -/
theorem c2_witness :
    lastAiText (deliverAll
        ([[("chunk", JsonVal.str "Hel")], [("chunk", JsonVal.str "lo")]].map
          (fun p => ("text", p)))
        ⟨[⟨Role.user, "q", none⟩, ⟨Role.ai, "", some []⟩], some "j", true⟩).messages
      = some "Hello" := by
  have h := c2_text_chunks_concatenated
    [[("chunk", JsonVal.str "Hel")], [("chunk", JsonVal.str "lo")]]
    ⟨[⟨Role.user, "q", none⟩, ⟨Role.ai, "", some []⟩], some "j", true⟩ "" rfl
  simpa using h

theorem lastAiCitations_deliverCitations (ps : List Payload) (s : ClientState)
    (cs0 : List Payload) (h : lastAiCitations s.messages = some cs0) :
    lastAiCitations (deliverAll (ps.map (fun p => ("citation", p))) s).messages
      = some (cs0 ++ ps) := by
  induction ps generalizing s cs0 with
  | nil => simpa using h
  | cons p ps ih =>
    have hstep : deliverAll ((p :: ps).map (fun p => ("citation", p))) s
        = deliverAll (ps.map (fun p => ("citation", p)))
            { s with messages := applyCitationFrame p s.messages } := rfl
    rw [hstep]
    have h2 := ih { s with messages := applyCitationFrame p s.messages } (cs0 ++ [p])
      (lastAiCitations_applyCitationFrame p s.messages cs0 h)
    rw [h2]
    simp

/-- Claim C5: for an answer whose AI message starts with no citations,
after k citation frames are delivered the citation list of the last AI
message is exactly the payloads in delivery order, and the rendered
badge labels are 1 through k in that order. -/
theorem c5_citations_numbered_in_delivery_order (ps : List Payload) (s : ClientState)
    (h : lastAiCitations s.messages = some []) :
    lastAiCitations (deliverAll (ps.map (fun p => ("citation", p))) s).messages
        = some ps ∧
    (citationBadges ps).map Prod.fst = (List.range ps.length).map (fun i => i + 1) := by
  constructor
  · simpa using lastAiCitations_deliverCitations ps s [] h
  · unfold citationBadges
    rw [List.map_map]
    have : (Prod.fst ∘ fun ic : Nat × Payload => (ic.1 + 1, ic.2.get "title"))
        = (fun i => i + 1) ∘ Prod.fst := rfl
    rw [this, ← List.map_map, List.enum_map_fst]

/-- Witness for C5 at a concrete input: two citation frames delivered to
a fresh AI message are stored in delivery order and labelled 1, 2. -/
theorem c5_witness :
    lastAiCitations (deliverAll
        ([[("title", JsonVal.str "DocA")], [("title", JsonVal.str "DocB")]].map
          (fun p => ("citation", p)))
        ⟨[⟨Role.ai, "", some []⟩], some "j", true⟩).messages
      = some [[("title", JsonVal.str "DocA")], [("title", JsonVal.str "DocB")]] ∧
    (citationBadges [[("title", JsonVal.str "DocA")], [("title", JsonVal.str "DocB")]]).map
        Prod.fst
      = (List.range 2).map (fun i => i + 1) :=
  c5_citations_numbered_in_delivery_order
    [[("title", JsonVal.str "DocA")], [("title", JsonVal.str "DocB")]]
    ⟨[⟨Role.ai, "", some []⟩], some "j", true⟩ rfl

/-- Claim C8: a text frame or a citation frame modifies at most the most
recent message with role `ai`: when no AI message exists the message
list is unchanged, and otherwise the length is preserved and every
position other than the last-AI index is unchanged. -/
theorem c8_frames_touch_only_last_ai (p : Payload) (s : ClientState) :
    (hasAi s.messages = false →
      (genDispatch "text" p s).messages = s.messages ∧
      (genDispatch "citation" p s).messages = s.messages) ∧
    (∀ i, lastAiIdx s.messages = some i →
      (genDispatch "text" p s).messages.length = s.messages.length ∧
      (genDispatch "citation" p s).messages.length = s.messages.length ∧
      ∀ j, j ≠ i →
        (genDispatch "text" p s).messages.get? j = s.messages.get? j ∧
        (genDispatch "citation" p s).messages.get? j = s.messages.get? j) := by
  have htext : (genDispatch "text" p s).messages = applyTextFrame p s.messages := rfl
  have hcit : (genDispatch "citation" p s).messages = applyCitationFrame p s.messages := rfl
  rw [htext, hcit]
  unfold applyTextFrame applyCitationFrame
  refine ⟨fun hno => ⟨updateLastAi_of_not_hasAi _ _ hno, updateLastAi_of_not_hasAi _ _ hno⟩,
    fun i hi => ⟨updateLastAi_length _ _, updateLastAi_length _ _, fun j hj =>
      ⟨updateLastAi_get?_ne _ _ i hi j hj, updateLastAi_get?_ne _ _ i hi j hj⟩⟩⟩

/-- Witness for C8 at concrete inputs: with no AI message a text frame
leaves the list unchanged; with an AI message at index 1, position 0 is
unchanged by a text frame. -/
theorem c8_witness :
    (genDispatch "text" [("chunk", JsonVal.str "x")]
        ⟨[⟨Role.user, "q", none⟩], none, true⟩).messages = [⟨Role.user, "q", none⟩] ∧
    (genDispatch "text" [("chunk", JsonVal.str "x")]
        ⟨[⟨Role.user, "q", none⟩, ⟨Role.ai, "", some []⟩], some "j", true⟩).messages.get? 0
      = some ⟨Role.user, "q", none⟩ := by
  constructor
  · exact ((c8_frames_touch_only_last_ai [("chunk", JsonVal.str "x")]
      ⟨[⟨Role.user, "q", none⟩], none, true⟩).1 rfl).1
  · have h := ((c8_frames_touch_only_last_ai [("chunk", JsonVal.str "x")]
      ⟨[⟨Role.user, "q", none⟩, ⟨Role.ai, "", some []⟩], some "j", true⟩).2 1 rfl).2.2 0
      (by decide)
    rw [h.1]
    rfl

/-- Claim C1 counterexample: the generation-stream client registers no
listener under the section-3/section-6 frame names `text-chunk`,
`tool-step`, `progress` or `error`, so the registered listener set does
not cover frames named as the spec describes. -/
theorem c1_counterexample :
    ¬("text-chunk" ∈ genListenerNames ∨ "tool-step" ∈ genListenerNames ∨
      "progress" ∈ genListenerNames ∨ "error" ∈ genListenerNames) := by
  decide

/-- Claim C1, amended: the generation-stream client registers listeners
for exactly the frame names `text`, `tool`, `citation` and `done`; a
frame delivered under any other name — including the section-3 names
`text-chunk`, `tool-step`, `progress` and `error` — leaves the client
state unchanged. -/
theorem c1_amended_listener_set (n : String) (p : Payload) (s : ClientState)
    (h : n ∉ genListenerNames) :
    genListenerNames = ["text", "tool", "citation", "done"] ∧
    genDispatch n p s = s := by
  refine ⟨rfl, ?_⟩
  unfold genDispatch
  have h1 : ¬(n = "text") := fun hc => h (by rw [hc]; decide)
  have h2 : ¬(n = "tool") := fun hc => h (by rw [hc]; decide)
  have h3 : ¬(n = "citation") := fun hc => h (by rw [hc]; decide)
  have h4 : ¬(n = "done") := fun hc => h (by rw [hc]; decide)
  rw [if_neg h1, if_neg h2, if_neg h3, if_neg h4]

/-- Witness for the amended C1 at a concrete input: a `text-chunk` frame
is not handled and changes nothing. -/
theorem c1_witness :
    genListenerNames = ["text", "tool", "citation", "done"] ∧
    genDispatch "text-chunk" [("chunk", JsonVal.str "x")] ⟨[], none, true⟩
      = ⟨[], none, true⟩ :=
  c1_amended_listener_set "text-chunk" [("chunk", JsonVal.str "x")] ⟨[], none, true⟩
    (by decide)

/-- Claim C3 counterexample: an `error` frame on the generation stream is
a terminal frame per the spec, yet the client (which registers no
`error` listener) leaves the `EventSource` open and the active job id
set after receiving it. -/
theorem c3_counterexample :
    (genDispatch "error" [("message", JsonVal.str "boom")]
        ⟨[], some "j1", true⟩).streamOpen = true ∧
    (genDispatch "error" [("message", JsonVal.str "boom")]
        ⟨[], some "j1", true⟩).jobId = some "j1" :=
  ⟨rfl, rfl⟩

/-- Claim C3, amended: receipt of a `done` frame closes the
`EventSource` and clears the active job id, but an `error` frame is
unhandled on the generation stream and leaves the client state — stream
open, job id set — entirely unchanged. -/
theorem c3_amended_done_closes (p : Payload) (s : ClientState) :
    (genDispatch "done" p s).streamOpen = false ∧
    (genDispatch "done" p s).jobId = none ∧
    genDispatch "error" p s = s :=
  ⟨rfl, rfl, rfl⟩

/-- Claim C6 counterexample: with a generation text frame carrying both
a `text` field (value `A`) and a `chunk` field (value `B`), the client
appends `B`, not `A` — the fragment is read from field `chunk`; and with
an upload progress frame carrying both `percent` (50) and `progress`
(75), the displayed progress is 75 — the percentage is read from field
`progress`. -/
theorem c6_counterexample :
    (lastAiText (genDispatch "text"
        [("text", JsonVal.str "A"), ("chunk", JsonVal.str "B")]
        ⟨[⟨Role.ai, "", some []⟩], some "j", true⟩).messages = some "B" ∧
      "B" ≠ "A") ∧
    ((uploadDispatch "progress"
        (some [("percent", JsonVal.num 50), ("progress", JsonVal.num 75),
               ("text", JsonVal.str "step")])
        ⟨none, [], true⟩).uploadProgress
      = some ⟨JsonVal.str "step", JsonVal.num 75⟩ ∧
      JsonVal.num 75 ≠ JsonVal.num 50) := by
  refine ⟨⟨rfl, by decide⟩, rfl, by decide⟩

/-- Claim C6, amended: a generation text frame carries its fragment
under field `chunk` and the client appends exactly that field's value to
the last AI message; an upload progress frame carries its step text
under field `text` and its percentage under field `progress`, and the
client displays exactly those fields. -/
theorem c6_amended_field_names (p : Payload) (s : ClientState) (t0 c : String)
    (q : Payload) (u : UploadState) (n : Int)
    (hc : p.lookup "chunk" = some (JsonVal.str c))
    (ht : lastAiText s.messages = some t0)
    (hp : q.lookup "progress" = some (JsonVal.num n)) :
    lastAiText (genDispatch "text" p s).messages = some (t0 ++ c) ∧
    (uploadDispatch "progress" (some q) u).uploadProgress
      = some ⟨q.get "text", JsonVal.num n⟩ := by
  constructor
  · have hmsg : (genDispatch "text" p s).messages = applyTextFrame p s.messages := rfl
    rw [hmsg, lastAiText_applyTextFrame p s.messages t0 ht]
    simp [Payload.get, hc, JsonVal.asString]
  · have hu : (uploadDispatch "progress" (some q) u).uploadProgress
        = some ⟨q.get "text", q.get "progress"⟩ := rfl
    rw [hu]
    simp [Payload.get, hp]

/-- Witness for the amended C6 at concrete inputs. -/
theorem c6_witness :
    lastAiText (genDispatch "text" [("chunk", JsonVal.str "hi")]
        ⟨[⟨Role.ai, "so", some []⟩], some "j", true⟩).messages = some ("so" ++ "hi") ∧
    (uploadDispatch "progress"
        (some [("progress", JsonVal.num 40), ("text", JsonVal.str "Parsing")])
        ⟨none, [], true⟩).uploadProgress
      = some ⟨Payload.get [("progress", JsonVal.num 40),
               ("text", JsonVal.str "Parsing")] "text", JsonVal.num 40⟩ :=
  c6_amended_field_names [("chunk", JsonVal.str "hi")]
    ⟨[⟨Role.ai, "so", some []⟩], some "j", true⟩ "so" "hi"
    [("progress", JsonVal.num 40), ("text", JsonVal.str "Parsing")]
    ⟨none, [], true⟩ 40 rfl rfl rfl

/-- Claim C7: on receiving the upload stream's final `done` frame, whose
payload names the ingested document under field `filename`, the client
appends that filename to the visible uploaded-files list and sets the
displayed progress to 100. -/
theorem c7_upload_done_appends_filename (p : Payload) (u : UploadState) (f : String)
    (h : p.lookup "filename" = some (JsonVal.str f)) :
    (uploadDispatch "done" (some p) u).uploadedFiles
      = u.uploadedFiles ++ [JsonVal.str f] ∧
    (uploadDispatch "done" (some p) u).uploadProgress
      = some ⟨p.get "message", JsonVal.num 100⟩ := by
  have hd : uploadDispatch "done" (some p) u
      = { u with
          uploadProgress := some ⟨p.get "message", JsonVal.num 100⟩,
          uploadedFiles := u.uploadedFiles ++ [p.get "filename"] } := rfl
  rw [hd]
  exact ⟨by simp [Payload.get, h], rfl⟩

/-- Witness for C7 at a concrete input. -/
theorem c7_witness :
    (uploadDispatch "done"
        (some [("message", JsonVal.str "Indexed"), ("filename", JsonVal.str "a.pdf")])
        ⟨some ⟨JsonVal.str "Chunking", JsonVal.num 75⟩, [JsonVal.str "b.pdf"], true⟩).uploadedFiles
      = [JsonVal.str "b.pdf"] ++ [JsonVal.str "a.pdf"] ∧
    (uploadDispatch "done"
        (some [("message", JsonVal.str "Indexed"), ("filename", JsonVal.str "a.pdf")])
        ⟨some ⟨JsonVal.str "Chunking", JsonVal.num 75⟩, [JsonVal.str "b.pdf"], true⟩).uploadProgress
      = some ⟨Payload.get [("message", JsonVal.str "Indexed"),
               ("filename", JsonVal.str "a.pdf")] "message", JsonVal.num 100⟩ :=
  c7_upload_done_appends_filename
    [("message", JsonVal.str "Indexed"), ("filename", JsonVal.str "a.pdf")]
    ⟨some ⟨JsonVal.str "Chunking", JsonVal.num 75⟩, [JsonVal.str "b.pdf"], true⟩ "a.pdf" rfl

/-- Claim C9: when the prompt input is empty or contains only
whitespace, `send` performs no network request and leaves the whole
page state — message list, active job id and prompt input — unchanged. -/
theorem c9_blank_prompt_send_noop (j : String) (s : AppState)
    (h : jsTrim s.prompt = "") :
    send j s = (s, false) := by
  unfold send
  rw [if_pos h]

/-- Witness for C9 at a concrete input: a prompt of three spaces. -/
theorem c9_witness :
    send "job1" ⟨"   ", [], none⟩ = (⟨"   ", [], none⟩, false) :=
  c9_blank_prompt_send_noop "job1" ⟨"   ", [], none⟩ (by decide)

/-- Claim C4 (modelled from the spec, since the backend registry source
is not in the snapshot): starting from an empty log, any sequence of
append attempts leaves at most one terminal event in the log; once a log
is terminal, every further `appendEvent` fails with `JobAlreadyTerminal`
and any further run of append attempts leaves the log unchanged. -/
theorem c4_at_most_one_terminal (es : List Event) (l : JobLog) (e : Event)
    (h : l.terminal = true) :
    (runAppends ⟨[]⟩ es).countTerminal ≤ 1 ∧
    appendEvent l e = Except.error AppendFailure.jobAlreadyTerminal ∧
    runAppends l es = l := by
  refine ⟨countTerminal_runAppends_le es ⟨[]⟩ (by decide), ?_,
    runAppends_of_terminal es l h⟩
  unfold appendEvent
  rw [if_pos h]

/-- Witness for C4 at a concrete input: after a `done` event, appending
a `text-chunk` event fails and changes nothing. -/
theorem c4_witness :
    (runAppends ⟨[]⟩ [Event.done "s", Event.textChunk "x"]).countTerminal ≤ 1 ∧
    appendEvent ⟨[Event.done "s"]⟩ (Event.textChunk "x")
      = Except.error AppendFailure.jobAlreadyTerminal ∧
    runAppends ⟨[Event.done "s"]⟩ [Event.done "s", Event.textChunk "x"]
      = ⟨[Event.done "s"]⟩ :=
  c4_at_most_one_terminal [Event.done "s", Event.textChunk "x"] ⟨[Event.done "s"]⟩
    (Event.textChunk "x") rfl

theorem filterMap_map_none {α β γ : Type} (f : β → Option γ) (g : α → β)
    (l : List α) (h : ∀ a, f (g a) = none) : (l.map g).filterMap f = [] := by
  induction l with
  | nil => rfl
  | cons a l ih => simp [List.filterMap_cons, h, ih]

theorem filterMap_map_some {α β : Type} (f : β → Option α) (g : α → β)
    (l : List α) (h : ∀ a, f (g a) = some a) : (l.map g).filterMap f = l := by
  induction l with
  | nil => rfl
  | cons a l ih => simp [List.filterMap_cons, h, ih]

/-- Claim C10: for every backend response it relays, the proxy handler
sets exactly the backend's status code, sets exactly the backend's
response headers minus `content-encoding` and `content-length` in
order, and writes exactly the body chunks in order; when the backend
fetch fails it answers status 500 with the JSON body
`error: Proxy error`. -/
theorem c10_proxy_forwards (r : BackendResponse) (e : FetchFailure) :
    (handler (Except.ok r)).filterMap getStatusAction = [r.status] ∧
    (handler (Except.ok r)).filterMap getHeaderAction
      = r.headers.filter
          (fun kv => ¬(kv.1 = "content-encoding" ∨ kv.1 = "content-length")) ∧
    (handler (Except.ok r)).filterMap getWriteAction = r.bodyChunks ∧
    handler (Except.error e) = [ResAction.jsonBody 500 [("error", "Proxy error")]] := by
  have hh : handler (Except.ok r)
      = [ResAction.setStatus r.status]
          ++ (r.headers.filter
              (fun kv => ¬(kv.1 = "content-encoding" ∨ kv.1 = "content-length"))).map
              (fun kv => ResAction.setHeader kv.1 kv.2)
          ++ r.bodyChunks.map ResAction.write
          ++ [ResAction.endRes] := by
    simp only [handler]
    rw [handler_headerFold]
    simp
  refine ⟨?_, ?_, ?_, rfl⟩
  · rw [hh]
    simp only [List.filterMap_append]
    rw [filterMap_map_none getStatusAction
          (fun kv : String × String => ResAction.setHeader kv.1 kv.2) _ (fun a => rfl),
        filterMap_map_none getStatusAction ResAction.write _ (fun a => rfl)]
    rfl
  · rw [hh]
    simp only [List.filterMap_append]
    rw [filterMap_map_some getHeaderAction
          (fun kv : String × String => ResAction.setHeader kv.1 kv.2) _ (fun a => rfl),
        filterMap_map_none getHeaderAction ResAction.write _ (fun a => rfl)]
    simp [List.filterMap_cons, getHeaderAction]
  · rw [hh]
    simp only [List.filterMap_append]
    rw [filterMap_map_none getWriteAction
          (fun kv : String × String => ResAction.setHeader kv.1 kv.2) _ (fun a => rfl),
        filterMap_map_some getWriteAction ResAction.write _ (fun a => rfl)]
    simp [List.filterMap_cons, getWriteAction]
